import Mathlib

/-!
Shallow embedding of the agent-orchestration core of the
RagAndWebSearchAgent repository (NestJS + LangGraph), covering:

* the conversation data model (`Message`, `ConvState`) with the
  `Annotation.Root` reducers (`messagesReducer`, message-log concat;
  sender "last write wins"),
* the `router` function of `StateGraphService` (state-graph service,
  lines 292-307),
* the Tavily node's message filter (lines 257-285),
* `runAgentNode` (lines 213-233),
* the graph executor (node registry + conditional-edge table, lines
  310-335) driven with the LangGraph recursion limit (default 25),
* `StateGraphService.run` / `StateGraphController.run`, and
* `KnowledgeService.search` (knowledge.service.ts, lines 107-135).

External collaborators (the OpenAI Model Client behind each agent, the
tool implementations, the vector store) are modelled as oracles /
interface-level data, as the spec treats them: the engine is quantified
over every possible sequence of their responses.

JavaScript semantics notes encoded here:
* message `content` is either a string or some non-string value
  (`JsContent`), since the router tests `typeof content === 'string'`;
* `tool_calls` may be absent (`none`) or present (`some list`); an
  empty present array is truthy in JS but fails `length > 0`, so both
  checks in the source collapse to `0 < (tool_calls.getD []).length`;
* reading `messages[messages.length - 1].content` on an empty array
  throws a TypeError (the optional-chained `lastMessage?.tool_calls`
  check before it does not), modelled as `Except.error .typeError`.
-/

namespace RagWebAgent

/-- Chat role of a message: LangChain SystemMessage / HumanMessage /
AIMessage / ToolMessage. -/
inductive Role where
  | system
  | user
  | assistant
  | tool
deriving DecidableEq, Repr

/-- JS message content: a string, or any non-string structured value
(the router only ever distinguishes these two cases via `typeof`). -/
inductive JsContent where
  | str (s : String)
  | nonStr
deriving DecidableEq, Repr

/-- One tool-call request embedded in an AI message
(`{id, name, args}` in the LangChain `ToolCall` shape). -/
structure ToolCall where
  id : String
  name : String
  args : String
deriving DecidableEq, Repr

/-- A conversation message. `name` is the producing agent or tool
(absent on raw model completions and on the seeded user message);
`tool_calls` is absent on non-AI messages. -/
structure Message where
  role : Role
  content : JsContent
  name : Option String
  tool_calls : Option (List ToolCall)
deriving DecidableEq, Repr

/-- The shared graph state: the message log plus the `sender` channel
(name of the node that produced the last update). -/
structure ConvState where
  messages : List Message
  sender : String
deriving DecidableEq, Repr

/-- Errors surfaced by the embedded JS code. `inputError` belongs to
the spec's error taxonomy; it is included so that its absence from the
code's behaviour can be stated. -/
inductive JsError where
  | typeError
  | badRequest (msg : String)
  | recursionLimitExceeded
  | unknownTool (name : String)
  | unmappedBranch (label : String)
  | inputError
deriving DecidableEq, Repr

/-- `sub` is a prefix of `hay` (over character lists). -/
def charsPrefix : List Char → List Char → Bool
  | [], _ => true
  | _ :: _, [] => false
  | a :: as, b :: bs => (a == b) && charsPrefix as bs

/-- `sub` occurs as a contiguous run somewhere in `hay`. -/
def charsIncludes (hay sub : List Char) : Bool :=
  match hay with
  | [] => charsPrefix sub []
  | _ :: t => charsPrefix sub hay || charsIncludes t sub

/-- JS `String.prototype.includes`: `sub` occurs somewhere in `s`. -/
def strIncludes (s sub : String) : Bool :=
  charsIncludes s.data sub.data

/-- The `router` of the state-graph service (lines 292-307): reads the
last message; one or more tool calls route to `call_tool`; otherwise a
string content containing the sentinel "FINAL ANSWER" routes to `end`;
otherwise `continue`. On an empty message list the first (optional
chained) check is falsy and the second check dereferences `undefined`,
throwing a TypeError. -/
def router (messages : List Message) : Except JsError String :=
  match messages.getLast? with
  | none => Except.error JsError.typeError
  | some lastMessage =>
    if 0 < (lastMessage.tool_calls.getD []).length then
      Except.ok "call_tool"
    else
      match lastMessage.content with
      | JsContent.str c =>
          if strIncludes c "FINAL ANSWER" then Except.ok "end"
          else Except.ok "continue"
      | JsContent.nonStr => Except.ok "continue"

/-- Keep-predicate of the Tavily node's message filter (lines 261-273):
a message with a non-empty `tool_calls` array is kept iff none of its
calls names `rag_search`; any other message is kept iff its `name` is
neither `Rag` nor `rag_search` (an absent name is kept: JS
`['Rag','rag_search'].includes(undefined)` is false). -/
def tavilyKeep (e : Message) : Bool :=
  let tcs := e.tool_calls.getD []
  if 0 < tcs.length then
    tcs.all (fun tc => !(tc.name == "rag_search"))
  else
    !(e.name == some "Rag" || e.name == some "rag_search")

/-- The filtered view of the log handed to the Tavily agent
(`state.messages.filter(...)`, lines 261-273). -/
def tavilyFilter (messages : List Message) : List Message :=
  messages.filter tavilyKeep

/-- A Model Client completion (LangChain `AIMessage`): content plus the
optional tool-call requests. -/
structure Completion where
  content : JsContent
  tool_calls : Option (List ToolCall)
deriving DecidableEq, Repr

/-- The partial state update returned by a node, folded into the state
by the `Annotation.Root` reducers. `sender = none` models a node that
does not write the sender channel (the prebuilt `ToolNode`). -/
structure NodeUpdate where
  messages : List Message
  sender : Option String
deriving DecidableEq, Repr

/-- The `messages` reducer of the `agentState` annotation (line 195):
`(x, y) => x.concat(y)`. -/
def messagesReducer (x y : List Message) : List Message :=
  x ++ y

/-- The `sender` reducer of the `agentState` annotation (line 199):
`(x, y) => y ?? x ?? 'user'`. -/
def senderReducer (x y : Option String) : String :=
  ((y.orElse (fun _ => x)).getD "user")

/-- Fold a node's update into the state with the two reducers. -/
def applyUpdate (s : ConvState) (u : NodeUpdate) : ConvState :=
  { messages := messagesReducer s.messages u.messages,
    sender := senderReducer (some s.sender) u.sender }

/-- `runAgentNode` (lines 213-233): invoke the agent; if the completion
carries no tool calls (absent or empty array) it is re-wrapped as
`new HumanMessage({...result, name})` — role `user`, named after the
agent, and without a `tool_calls` property; otherwise the raw
`AIMessage` (role `assistant`, no name) is appended. Either way the
returned update sets `sender` to the agent's name. -/
def runAgentNode (agentName : String) (completion : Completion) : NodeUpdate :=
  if (completion.tool_calls.getD []).length = 0 then
    { messages := [{ role := Role.user, content := completion.content,
                     name := some agentName, tool_calls := none }],
      sender := some agentName }
  else
    { messages := [{ role := Role.assistant, content := completion.content,
                     name := none, tool_calls := completion.tool_calls }],
      sender := some agentName }

/-- The nodes of the compiled graph (lines 236-286): three agent nodes
plus the tool node. START and END are represented by the executor's
entry point and `none` successor respectively. -/
inductive Node where
  | Coordinator
  | Rag
  | Tavily
  | call_tool
deriving DecidableEq, Repr

/-- The registered name of a node, as used in the edge maps and in the
`sender` channel. -/
def Node.nodeName : Node → String
  | Node.Coordinator => "Coordinator"
  | Node.Rag => "Rag"
  | Node.Tavily => "Tavily"
  | Node.call_tool => "call_tool"

/-- The external collaborators of a Run, at their interface boundary:
`complete agentName view` is the Model Client completion produced for
that agent given the message view it is shown; `toolContent call` is
the content of the tool's reply for one tool call. The engine is
quantified over all such oracles. -/
structure Oracle where
  complete : String → List Message → Completion
  toolContent : ToolCall → JsContent

/-- Tool names registered in the prebuilt `ToolNode` (line 204-207):
the RAG tool (`rag_search`, line 156) and the Tavily search tool. -/
def registeredTools : List String :=
  ["rag_search", "tavily_search"]

/-- Execute one tool call in the `ToolNode`: a registered tool produces
one tool-role message named after the tool; an unregistered name is a
fatal `UnknownToolError`. -/
def execToolCall (o : Oracle) (tc : ToolCall) : Except JsError Message :=
  if tc.name ∈ registeredTools then
    Except.ok { role := Role.tool, content := o.toolContent tc,
                name := some tc.name, tool_calls := none }
  else
    Except.error (JsError.unknownTool tc.name)

/-- Execute every pending tool call in order, stopping at the first
failure. -/
def execToolCalls (o : Oracle) : List ToolCall → Except JsError (List Message)
  | [] => Except.ok []
  | tc :: rest =>
    match execToolCall o tc with
    | Except.error e => Except.error e
    | Except.ok m =>
      match execToolCalls o rest with
      | Except.error e => Except.error e
      | Except.ok ms => Except.ok (m :: ms)

/-- Execute one node on the current state and fold its update into the
state. Agent nodes call their Model Client on the full log — except
Tavily, which is shown the filtered view (lines 257-284) while its
update is still folded into the unfiltered canonical state. The
`call_tool` node executes the last message's tool calls and does not
write the sender channel. -/
def executeNode (o : Oracle) : Node → ConvState → Except JsError ConvState
  | Node.Coordinator, s =>
      Except.ok (applyUpdate s (runAgentNode "Coordinator" (o.complete "Coordinator" s.messages)))
  | Node.Rag, s =>
      Except.ok (applyUpdate s (runAgentNode "Rag" (o.complete "Rag" s.messages)))
  | Node.Tavily, s =>
      Except.ok (applyUpdate s (runAgentNode "Tavily" (o.complete "Tavily" (tavilyFilter s.messages))))
  | Node.call_tool, s =>
      match execToolCalls o (((s.messages.getLast?).map (fun m => m.tool_calls.getD [])).getD []) with
      | Except.error e => Except.error e
      | Except.ok results => Except.ok (applyUpdate s { messages := results, sender := none })

/-- The conditional-edge table (lines 310-335), evaluated on the state
*after* the node's update. `none` is END. A route label absent from a
node's edge map (e.g. `call_tool` out of Coordinator, or `end` out of
Rag/Tavily) has no target and is a runtime error, as is an unmapped
`sender` out of `call_tool`. -/
def nextNode : Node → ConvState → Except JsError (Option Node)
  | Node.Coordinator, s =>
      match router s.messages with
      | Except.error e => Except.error e
      | Except.ok "continue" => Except.ok (some Node.Rag)
      | Except.ok "end" => Except.ok none
      | Except.ok l => Except.error (JsError.unmappedBranch l)
  | Node.Rag, s =>
      match router s.messages with
      | Except.error e => Except.error e
      | Except.ok "continue" => Except.ok (some Node.Tavily)
      | Except.ok "call_tool" => Except.ok (some Node.call_tool)
      | Except.ok l => Except.error (JsError.unmappedBranch l)
  | Node.Tavily, s =>
      match router s.messages with
      | Except.error e => Except.error e
      | Except.ok "continue" => Except.ok (some Node.Coordinator)
      | Except.ok "call_tool" => Except.ok (some Node.call_tool)
      | Except.ok l => Except.error (JsError.unmappedBranch l)
  | Node.call_tool, s =>
      match s.sender with
      | "Tavily" => Except.ok (some Node.Tavily)
      | "Rag" => Except.ok (some Node.Rag)
      | l => Except.error (JsError.unmappedBranch l)

/-- Drive the graph from a node with the given step budget, recording
for each executed step the node that was invoked and the state it was
invoked on. Exhausting the budget with a pending node is the LangGraph
`GraphRecursionError`. -/
def runNodes (o : Oracle) : Nat → Node → ConvState → Except JsError ConvState × List (Node × ConvState)
  | 0, _, _ => (Except.error JsError.recursionLimitExceeded, [])
  | fuel + 1, node, s =>
    match executeNode o node s with
    | Except.error e => (Except.error e, [(node, s)])
    | Except.ok s' =>
      match nextNode node s' with
      | Except.error e => (Except.error e, [(node, s)])
      | Except.ok none => (Except.ok s', [(node, s)])
      | Except.ok (some n') =>
        let r := runNodes o fuel n' s'
        (r.1, (node, s) :: r.2)

/-- The LangGraph step budget. `run` places `config: {recursionLimit: 25}`
inside the *input object* rather than as `invoke`'s second argument, so
the framework's own default of 25 is what actually applies; either way
the effective limit is 25. -/
def recursionLimit : Nat := 25

/-- The initial state seeded by `run(input)` (lines 136-139): a single
user message holding the question; the sender channel starts at its
annotation default `'user'`. -/
def seedState (input : String) : ConvState :=
  { messages := [{ role := Role.user, content := JsContent.str input,
                   name := none, tool_calls := none }],
    sender := "user" }

/-- `graph.invoke` on the seeded state: the unconditional START edge
(line 312) enters at Coordinator. Returns the final result and the
step trace. -/
def graphInvoke (o : Oracle) (input : String) : Except JsError ConvState × List (Node × ConvState) :=
  runNodes o recursionLimit Node.Coordinator (seedState input)

/-- `StateGraphService.run(input)` (lines 135-140): no validation of
the input; seed the state and invoke the graph. -/
def StateGraphService.run (o : Oracle) (input : String) : Except JsError ConvState :=
  (graphInvoke o input).1

/-- `StateGraphController.run` (lines 405-411): invoke the service on
`body.question` and return the content of the last message. -/
def StateGraphController.run (o : Oracle) (question : String) : Except JsError JsContent := do
  let lastState ← StateGraphService.run o question
  match lastState.messages.getLast? with
  | some m => pure m.content
  | none => Except.error JsError.typeError

/-- A document chunk held by the vector store, at the interface level. -/
structure DocumentChunk where
  pageContent : String
  metadata : String
deriving DecidableEq, Repr

/-- One search hit of the knowledge service response. -/
structure SearchHit where
  content : String
  metadata : String
  score : Int
deriving DecidableEq, Repr

/-- The response value of `KnowledgeService.search`. -/
structure SearchResponse where
  message : String
  results : List SearchHit
deriving DecidableEq, Repr

/-- Modelled from the spec: the `MemoryVectorStore` collaborator (an
external langchain library, out of the core per the spec's scope) seen
at its interface — the store's behaviour for the current query is the
similarity-ranked list of (chunk, score) pairs, and
`similaritySearchVectorWithScore(embedding, k)` returns its first `k`
entries. Scores are opaque numbers here (`Int` in place of JS float);
no claim depends on their values. -/
def similaritySearchVectorWithScore (ranked : List (DocumentChunk × Int)) (k : Nat) : List (DocumentChunk × Int) :=
  ranked.take k

/-- One of the characters JS `String.prototype.trim` strips, per
ECMA-262: WhiteSpace (TAB U+0009, VT U+000B, FF U+000C, SP U+0020,
NBSP U+00A0, ZWNBSP U+FEFF, and the Unicode Space_Separator category
U+1680, U+2000..U+200A, U+202F, U+205F, U+3000) and LineTerminator
(LF U+000A, CR U+000D, LS U+2028, PS U+2029). -/
def isWhitespaceChar (c : Char) : Bool :=
  let n := c.toNat
  n == 0x0009 || n == 0x000A || n == 0x000B || n == 0x000C || n == 0x000D ||
    n == 0x0020 || n == 0x00A0 || n == 0x1680 ||
    (Nat.ble 0x2000 n && Nat.ble n 0x200A) ||
    n == 0x2028 || n == 0x2029 || n == 0x202F || n == 0x205F ||
    n == 0x3000 || n == 0xFEFF

/-- JS `String.prototype.trim`: strip leading and trailing ECMA-262
whitespace. -/
def jsTrim (s : String) : String :=
  String.mk (((s.data.dropWhile isWhitespaceChar).reverse.dropWhile isWhitespaceChar).reverse)

/-- `KnowledgeService.search` (knowledge.service.ts lines 107-135):
reject a blank query (`!query || query.trim() === ''`) with a
`BadRequestException`; otherwise take the top-1 store result; zero
results yield a non-error response with an empty result list. -/
def KnowledgeService.search (ranked : List (DocumentChunk × Int)) (query : String) : Except JsError SearchResponse :=
  if query == "" || jsTrim query == "" then
    Except.error (JsError.badRequest "La requête ne peut pas être vide")
  else
    let results := similaritySearchVectorWithScore ranked 1
    if results.length = 0 then
      Except.ok { message := "Aucun résultat trouvé. Assurez-vous que des documents ont été ingérés.",
                  results := [] }
    else
      Except.ok { message := "résultat trouvé",
                  results := results.map (fun p =>
                    { content := p.1.pageContent, metadata := p.1.metadata, score := p.2 }) }

/-- An oracle "never emits the termination sentinel": every completion
it produces carries no tool-call request and no string content
containing "FINAL ANSWER". -/
def NeverFinal (o : Oracle) : Prop :=
  ∀ nm view, (o.complete nm view).tool_calls.getD [] = [] ∧
    ∀ t, (o.complete nm view).content = JsContent.str t → strIncludes t "FINAL ANSWER" = false

/-- Whether a run result is the spec's `InputError`. -/
def isInputError : Except JsError ConvState → Bool
  | Except.error JsError.inputError => true
  | _ => false

end RagWebAgent

deriving instance DecidableEq for Except

namespace RagWebAgent

/-- A Model Client stub that always answers with plain prose and never
requests a tool call nor emits the sentinel. -/
def plainOracle : Oracle where
  complete := fun _ _ => { content := JsContent.str "still thinking", tool_calls := none }
  toolContent := fun _ => JsContent.str "tool result"

/-- A Model Client stub that immediately answers with the sentinel. -/
def finalOracle : Oracle where
  complete := fun _ _ => { content := JsContent.str "FINAL ANSWER: 42", tool_calls := none }
  toolContent := fun _ => JsContent.str "tool result"

/-- A Model Client stub whose Rag agent requests the `rag_search` tool
while the other agents answer with plain prose. -/
def ragToolOracle : Oracle where
  complete := fun agentName _ =>
    if agentName = "Rag" then
      { content := JsContent.str "", tool_calls := some [{ id := "1", name := "rag_search", args := "q" }] }
    else
      { content := JsContent.str "go", tool_calls := none }
  toolContent := fun _ => JsContent.str "doc"

/-! ### Helper lemmas about the embedded operations -/

theorem runAgentNode_sender (nm : String) (c : Completion) :
    (runAgentNode nm c).sender = some nm := by
  unfold runAgentNode; split <;> rfl

theorem executeNode_call_tool_sender (o : Oracle) (s s' : ConvState)
    (h : executeNode o Node.call_tool s = Except.ok s') : s'.sender = s.sender := by
  simp only [executeNode] at h
  cases hr : execToolCalls o (((s.messages.getLast?).map (fun m => m.tool_calls.getD [])).getD []) with
  | error e => rw [hr] at h; cases h
  | ok results => rw [hr] at h; cases h; rfl

theorem executeNode_Rag_sender (o : Oracle) (s s' : ConvState)
    (h : executeNode o Node.Rag s = Except.ok s') : s'.sender = "Rag" := by
  simp only [executeNode, Except.ok.injEq] at h
  rw [← h]
  show senderReducer (some s.sender) (runAgentNode "Rag" (o.complete "Rag" s.messages)).sender = "Rag"
  rw [runAgentNode_sender]; rfl

theorem executeNode_Tavily_sender (o : Oracle) (s s' : ConvState)
    (h : executeNode o Node.Tavily s = Except.ok s') : s'.sender = "Tavily" := by
  simp only [executeNode, Except.ok.injEq] at h
  rw [← h]
  show senderReducer (some s.sender) (runAgentNode "Tavily" (o.complete "Tavily" (tavilyFilter s.messages))).sender = "Tavily"
  rw [runAgentNode_sender]; rfl

theorem nextNode_Coordinator_target (s : ConvState) (n' : Node)
    (h : nextNode Node.Coordinator s = Except.ok (some n')) : n' = Node.Rag := by
  simp only [nextNode] at h
  split at h <;> simp_all

theorem nextNode_call_tool_target (s : ConvState) (n' : Node)
    (h : nextNode Node.call_tool s = Except.ok (some n')) :
    n' = Node.Rag ∨ n' = Node.Tavily := by
  simp only [nextNode] at h
  split at h <;> simp_all

/-- When a step hands control to `call_tool`, the post-step state's
sender is the name of the agent that issued the tool call. -/
theorem call_tool_entry_sender (o : Oracle) (n : Node) (s s' : ConvState)
    (hE : executeNode o n s = Except.ok s')
    (hN : nextNode n s' = Except.ok (some Node.call_tool)) :
    s'.sender = "Rag" ∨ s'.sender = "Tavily" := by
  cases n with
  | Coordinator => have := nextNode_Coordinator_target s' Node.call_tool hN; cases this
  | Rag => exact Or.inl (executeNode_Rag_sender o s s' hE)
  | Tavily => exact Or.inr (executeNode_Tavily_sender o s s' hE)
  | call_tool =>
    rcases nextNode_call_tool_target s' Node.call_tool hN with h | h <;> cases h

/-- Any successful node execution extends the canonical log by
concatenation. -/
theorem executeNode_messages_extend (o : Oracle) (n : Node) (s s' : ConvState)
    (h : executeNode o n s = Except.ok s') :
    ∃ t, s'.messages = s.messages ++ t := by
  cases n with
  | Coordinator =>
    simp only [executeNode, Except.ok.injEq] at h
    exact ⟨_, by rw [← h]; rfl⟩
  | Rag =>
    simp only [executeNode, Except.ok.injEq] at h
    exact ⟨_, by rw [← h]; rfl⟩
  | Tavily =>
    simp only [executeNode, Except.ok.injEq] at h
    exact ⟨_, by rw [← h]; rfl⟩
  | call_tool =>
    simp only [executeNode] at h
    cases hr : execToolCalls o (((s.messages.getLast?).map (fun m => m.tool_calls.getD [])).getD []) with
    | error e => rw [hr] at h; cases h
    | ok results => rw [hr] at h; cases h; exact ⟨results, rfl⟩

theorem router_error_shape (messages : List Message) (e : JsError)
    (h : router messages = Except.error e) : e = JsError.typeError := by
  unfold router at h
  cases hl : messages.getLast? with
  | none => rw [hl] at h; cases h; rfl
  | some m =>
    rw [hl] at h
    dsimp only [] at h
    by_cases h1 : 0 < (m.tool_calls.getD []).length
    · rw [if_pos h1] at h; cases h
    · rw [if_neg h1] at h
      cases hc : m.content with
      | str t =>
        rw [hc] at h
        dsimp only [] at h
        by_cases h2 : strIncludes t "FINAL ANSWER" = true
        · rw [if_pos h2] at h; cases h
        · rw [if_neg h2] at h; cases h
      | nonStr => rw [hc] at h; cases h

theorem execToolCalls_error_shape (o : Oracle) :
    ∀ (tcs : List ToolCall) (e : JsError),
      execToolCalls o tcs = Except.error e → ∃ nm, e = JsError.unknownTool nm := by
  intro tcs
  induction tcs with
  | nil => intro e h; cases h
  | cons tc rest ih =>
    intro e h
    unfold execToolCalls at h
    unfold execToolCall at h
    by_cases hreg : tc.name ∈ registeredTools
    · rw [if_pos hreg] at h
      cases hr : execToolCalls o rest with
      | error e0 => rw [hr] at h; cases h; exact ih _ hr
      | ok ms => rw [hr] at h; cases h
    · rw [if_neg hreg] at h
      cases h
      exact ⟨tc.name, rfl⟩

theorem executeNode_error_shape (o : Oracle) (n : Node) (s : ConvState) (e : JsError)
    (h : executeNode o n s = Except.error e) : ∃ nm, e = JsError.unknownTool nm := by
  cases n with
  | Coordinator => cases h
  | Rag => cases h
  | Tavily => cases h
  | call_tool =>
    simp only [executeNode] at h
    cases hr : execToolCalls o (((s.messages.getLast?).map (fun m => m.tool_calls.getD [])).getD []) with
    | error e0 => rw [hr] at h; cases h; exact execToolCalls_error_shape o _ _ hr
    | ok results => rw [hr] at h; cases h

theorem nextNode_error_shape (n : Node) (s : ConvState) (e : JsError)
    (h : nextNode n s = Except.error e) :
    e = JsError.typeError ∨ ∃ l, e = JsError.unmappedBranch l := by
  cases n with
  | Coordinator =>
    simp only [nextNode] at h
    split at h
    · rename_i e0 heq
      cases h
      exact Or.inl (router_error_shape s.messages _ heq)
    · cases h
    · cases h
    · cases h; exact Or.inr ⟨_, rfl⟩
  | Rag =>
    simp only [nextNode] at h
    split at h
    · rename_i e0 heq
      cases h
      exact Or.inl (router_error_shape s.messages _ heq)
    · cases h
    · cases h
    · cases h; exact Or.inr ⟨_, rfl⟩
  | Tavily =>
    simp only [nextNode] at h
    split at h
    · rename_i e0 heq
      cases h
      exact Or.inl (router_error_shape s.messages _ heq)
    · cases h
    · cases h
    · cases h; exact Or.inr ⟨_, rfl⟩
  | call_tool =>
    simp only [nextNode] at h
    split at h
    · cases h
    · cases h
    · cases h; exact Or.inr ⟨_, rfl⟩

/-- No code path of the executor produces the spec's `InputError`. -/
theorem runNodes_not_inputError (o : Oracle) :
    ∀ (fuel : Nat) (n : Node) (s : ConvState),
      isInputError (runNodes o fuel n s).1 = false := by
  intro fuel
  induction fuel with
  | zero => intro n s; rfl
  | succ k ih =>
    intro n s
    unfold runNodes
    cases hE : executeNode o n s with
    | error e =>
      obtain ⟨nm, rfl⟩ := executeNode_error_shape o n s e hE
      rfl
    | ok s' =>
      cases hN : nextNode n s' with
      | error e =>
        rcases nextNode_error_shape n s' e hN with rfl | ⟨l, rfl⟩ <;>
          simp [hN, isInputError]
      | ok on' =>
        cases on' with
        | none => simp [hN, isInputError]
        | some n' => simpa [hN] using ih n' s'

theorem runNodes_trace_length_le (o : Oracle) :
    ∀ (fuel : Nat) (n : Node) (s : ConvState), (runNodes o fuel n s).2.length ≤ fuel := by
  intro fuel
  induction fuel with
  | zero => intro n s; exact Nat.le_refl 0
  | succ k ih =>
    intro n s
    unfold runNodes
    cases hE : executeNode o n s with
    | error e => simp
    | ok s' =>
      cases hN : nextNode n s' with
      | error e => simp [hN]
      | ok on' =>
        cases on' with
        | none => simp [hN]
        | some n' => simpa [hN] using ih n' s'

/-- After a step of an agent given a completion with no tool calls and
no sentinel, the router says `continue`. -/
theorem router_after_plain_step (msgs : List Message) (nm : String) (c : Completion)
    (htc : c.tool_calls.getD [] = [])
    (hsf : ∀ t, c.content = JsContent.str t → strIncludes t "FINAL ANSWER" = false) :
    router (msgs ++ (runAgentNode nm c).messages) = Except.ok "continue" := by
  unfold runAgentNode
  rw [if_pos (by rw [htc]; rfl)]
  unfold router
  rw [List.getLast?_concat]
  simp only [Option.getD_none, List.length_nil, Nat.lt_irrefl, if_false]
  cases hc : c.content with
  | str t => simp [hsf t hc]
  | nonStr => rfl

/-- Under an oracle that never emits the sentinel nor a tool call, the
executor cycles Coordinator → Rag → Tavily → Coordinator forever and
burns exactly its whole step budget. -/
theorem runNodes_neverFinal (o : Oracle) (hno : NeverFinal o) :
    ∀ (fuel : Nat) (n : Node), n ≠ Node.call_tool → ∀ s : ConvState,
      (runNodes o fuel n s).1 = Except.error JsError.recursionLimitExceeded ∧
      (runNodes o fuel n s).2.length = fuel := by
  intro fuel
  induction fuel with
  | zero => intro n hn s; exact ⟨rfl, rfl⟩
  | succ k ih =>
    intro n hn s
    cases n with
    | call_tool => exact absurd rfl hn
    | Coordinator =>
      have hr : router (applyUpdate s (runAgentNode "Coordinator" (o.complete "Coordinator" s.messages))).messages =
          Except.ok "continue" :=
        router_after_plain_step s.messages "Coordinator" _ (hno "Coordinator" s.messages).1 (hno "Coordinator" s.messages).2
      have hnext : nextNode Node.Coordinator
          (applyUpdate s (runAgentNode "Coordinator" (o.complete "Coordinator" s.messages))) =
          Except.ok (some Node.Rag) := by
        simp only [nextNode, hr]
      simp only [runNodes, executeNode, hnext]
      have := ih Node.Rag (by simp) (applyUpdate s (runAgentNode "Coordinator" (o.complete "Coordinator" s.messages)))
      exact ⟨this.1, by simpa using this.2⟩
    | Rag =>
      have hr : router (applyUpdate s (runAgentNode "Rag" (o.complete "Rag" s.messages))).messages =
          Except.ok "continue" :=
        router_after_plain_step s.messages "Rag" _ (hno "Rag" s.messages).1 (hno "Rag" s.messages).2
      have hnext : nextNode Node.Rag
          (applyUpdate s (runAgentNode "Rag" (o.complete "Rag" s.messages))) =
          Except.ok (some Node.Tavily) := by
        simp only [nextNode, hr]
      simp only [runNodes, executeNode, hnext]
      have := ih Node.Tavily (by simp) (applyUpdate s (runAgentNode "Rag" (o.complete "Rag" s.messages)))
      exact ⟨this.1, by simpa using this.2⟩
    | Tavily =>
      have hr : router (applyUpdate s (runAgentNode "Tavily" (o.complete "Tavily" (tavilyFilter s.messages)))).messages =
          Except.ok "continue" :=
        router_after_plain_step s.messages "Tavily" _ (hno "Tavily" (tavilyFilter s.messages)).1 (hno "Tavily" (tavilyFilter s.messages)).2
      have hnext : nextNode Node.Tavily
          (applyUpdate s (runAgentNode "Tavily" (o.complete "Tavily" (tavilyFilter s.messages)))) =
          Except.ok (some Node.Coordinator) := by
        simp only [nextNode, hr]
      simp only [runNodes, executeNode, hnext]
      have := ih Node.Coordinator (by simp) (applyUpdate s (runAgentNode "Tavily" (o.complete "Tavily" (tavilyFilter s.messages))))
      exact ⟨this.1, by simpa using this.2⟩

/-- The sender invariant along every trace: the state at every
`call_tool` invocation names Rag or Tavily as sender, provided it held
at entry. -/
theorem runNodes_call_tool_inv (o : Oracle) :
    ∀ (fuel : Nat) (n : Node) (s : ConvState),
      (n = Node.call_tool → s.sender = "Rag" ∨ s.sender = "Tavily") →
      ∀ p ∈ (runNodes o fuel n s).2, p.1 = Node.call_tool →
        p.2.sender = "Rag" ∨ p.2.sender = "Tavily" := by
  intro fuel
  induction fuel with
  | zero => intro n s hinv p hp; cases hp
  | succ k ih =>
    intro n s hinv p hp hpc
    unfold runNodes at hp
    cases hE : executeNode o n s with
    | error e =>
      rw [hE] at hp
      simp only [List.mem_singleton] at hp
      subst hp
      exact hinv hpc
    | ok s' =>
      rw [hE] at hp
      dsimp only [] at hp
      cases hN : nextNode n s' with
      | error e =>
        rw [hN] at hp
        simp only [List.mem_singleton] at hp
        subst hp
        exact hinv hpc
      | ok on' =>
        cases on' with
        | none =>
          rw [hN] at hp
          simp only [List.mem_singleton] at hp
          subst hp
          exact hinv hpc
        | some n' =>
          rw [hN] at hp
          simp only [List.mem_cons] at hp
          rcases hp with hp | hp
          · subst hp; exact hinv hpc
          · refine ih n' s' ?_ p hp hpc
            intro hn'
            subst hn'
            exact call_tool_entry_sender o n s s' hE hN

/-! ### Additional helper lemmas for the claim theorems -/

theorem runNodes_succ_trace_pos (o : Oracle) (k : Nat) (n : Node) (s : ConvState) :
    1 ≤ (runNodes o (k + 1) n s).2.length := by
  unfold runNodes
  cases hE : executeNode o n s with
  | error e => simp
  | ok s' =>
    cases hN : nextNode n s' with
    | error e => simp [hN]
    | ok on' =>
      cases on' with
      | none => simp [hN]
      | some n' => simp [hN]

/-! ### The claim theorems -/

/-- C1: Every Run terminates: for every input question and every oracle
(sequence of agent/tool responses) the executor performs at most
`recursionLimit` (= 25, the default) steps and returns either a final
state or a typed error; and under any Model Client that never emits the
termination sentinel (nor any tool call) the Run fails with
`RecursionLimitExceeded` after exactly 25 steps, not an infinite loop —
`plainOracle` being such a client. -/
theorem run_terminates_within_limit :
    (∀ (o : Oracle) (input : String), (graphInvoke o input).2.length ≤ recursionLimit) ∧
    (∀ (o : Oracle) (input : String),
      (∃ s, StateGraphService.run o input = Except.ok s) ∨
      (∃ e, StateGraphService.run o input = Except.error e)) ∧
    (∀ o : Oracle, NeverFinal o → ∀ input : String,
      StateGraphService.run o input = Except.error JsError.recursionLimitExceeded ∧
      (graphInvoke o input).2.length = 25) ∧
    NeverFinal plainOracle := by
  refine ⟨?_, ?_, ?_, ?_⟩
  · intro o input
    exact runNodes_trace_length_le o recursionLimit Node.Coordinator (seedState input)
  · intro o input
    cases h : StateGraphService.run o input with
    | error e => exact Or.inr ⟨e, rfl⟩
    | ok s => exact Or.inl ⟨s, rfl⟩
  · intro o hno input
    exact runNodes_neverFinal o hno recursionLimit Node.Coordinator (by simp) (seedState input)
  · intro nm view
    refine ⟨rfl, ?_⟩
    intro t ht
    simp only [plainOracle] at ht
    cases ht
    decide

/-- C2: Router precedence: whenever the last message of the log carries
one or more tool-call requests, `router` answers `call_tool`, whatever
the message content is — including content containing the sentinel. -/
theorem router_tool_call_precedence (pre : List Message) (m : Message)
    (h : 0 < (m.tool_calls.getD []).length) :
    router (pre ++ [m]) = Except.ok "call_tool" := by
  unfold router
  rw [List.getLast?_concat]
  simp [h]

/-- C2 witness: a message whose content is exactly the sentinel but
which carries a tool call still routes to `call_tool`. -/
theorem router_tool_call_precedence_witness :
    0 < ((some [{ id := "1", name := "rag_search", args := "q" }] : Option (List ToolCall)).getD []).length ∧
    router ([] ++ [{ role := Role.assistant, content := JsContent.str "FINAL ANSWER", name := none,
                     tool_calls := some [{ id := "1", name := "rag_search", args := "q" }] }]) =
      Except.ok "call_tool" :=
  ⟨by decide, router_tool_call_precedence [] _ (by decide)⟩

/-- An assistant message named "Rag" that carries a (non-rag) tool
call: the Tavily filter keeps it. Reachable runs never produce such a
message (tool-calling completions are appended unnamed), but over
arbitrary prior logs it witnesses that the filter does not remove every
Rag-authored message. -/
def ragNamedToolCallMsg : Message :=
  { role := Role.assistant, content := JsContent.str "x", name := some "Rag",
    tool_calls := some [{ id := "1", name := "tavily_search", args := "q" }] }

/-- C3 counterexample: over an arbitrary prior log, the filtered view
can retain a message authored by the knowledge-search agent — a
message named "Rag" whose non-empty tool calls do not include
`rag_search` is kept by the filter's first branch, which never looks at
the name. -/
theorem tavily_filter_keeps_rag_named_counterexample :
    tavilyFilter [ragNamedToolCallMsg] = [ragNamedToolCallMsg] ∧
    ragNamedToolCallMsg.name = some "Rag" :=
  ⟨by decide, rfl⟩

/-- C3 (amended): for every prior log in which no tool-call-bearing
message is named "Rag" or "rag_search" (true of every log the engine
itself produces), the filtered view supplied to the web-search agent
contains no message named "Rag", none named "rag_search", and none
whose tool calls include the knowledge-search tool. -/
theorem tavily_filter_excludes_rag (msgs : List Message)
    (h : ∀ m ∈ msgs, 0 < (m.tool_calls.getD []).length →
      m.name ≠ some "Rag" ∧ m.name ≠ some "rag_search") :
    ∀ m ∈ tavilyFilter msgs,
      m.name ≠ some "Rag" ∧ m.name ≠ some "rag_search" ∧
        ∀ tc ∈ m.tool_calls.getD [], tc.name ≠ "rag_search" := by
  intro m hm
  obtain ⟨hmsgs, hkeep⟩ := List.mem_filter.mp hm
  unfold tavilyKeep at hkeep
  by_cases hlen : 0 < (m.tool_calls.getD []).length
  · simp only [hlen, if_true] at hkeep
    refine ⟨(h m hmsgs hlen).1, (h m hmsgs hlen).2, ?_⟩
    intro tc htc
    have := List.all_eq_true.mp hkeep tc htc
    simpa using this
  · simp only [hlen, if_false] at hkeep
    have hnil : m.tool_calls.getD [] = [] :=
      List.eq_nil_of_length_eq_zero (Nat.eq_zero_of_not_pos (by simpa using hlen))
    simp only [Bool.not_eq_true', Bool.or_eq_false_iff, beq_eq_false_iff_ne] at hkeep
    exact ⟨hkeep.1, hkeep.2, by intro tc htc; rw [hnil] at htc; cases htc⟩

/-- A small mixed log for the C3 witness: a user question, a Rag-named
answer, a rag tool result, a rag-calling AI message and a
tavily-calling AI message. -/
def mixedLog : List Message :=
  [{ role := Role.user, content := JsContent.str "q", name := none, tool_calls := none },
   { role := Role.user, content := JsContent.str "from kb", name := some "Rag", tool_calls := none },
   { role := Role.tool, content := JsContent.str "doc", name := some "rag_search", tool_calls := none },
   { role := Role.assistant, content := JsContent.str "", name := none,
     tool_calls := some [{ id := "1", name := "rag_search", args := "q" }] },
   { role := Role.assistant, content := JsContent.str "", name := none,
     tool_calls := some [{ id := "2", name := "tavily_search", args := "q" }] }]

/-- C3 witness: on `mixedLog` the hypothesis holds and every message of
the filtered view avoids the knowledge-search agent and tool. -/
theorem tavily_filter_excludes_rag_witness :
    (∀ m ∈ mixedLog, 0 < (m.tool_calls.getD []).length →
      m.name ≠ some "Rag" ∧ m.name ≠ some "rag_search") ∧
    (∀ m ∈ tavilyFilter mixedLog,
      m.name ≠ some "Rag" ∧ m.name ≠ some "rag_search" ∧
        ∀ tc ∈ m.tool_calls.getD [], tc.name ≠ "rag_search") :=
  ⟨by decide, tavily_filter_excludes_rag mixedLog (by decide)⟩

/-- C4: after the `call_tool` node executes, the conditional edge hands
control exactly to the node named by `state.sender` at the time the
tool call was issued: the tool node leaves the sender channel
untouched, a sender of "Rag"/"Tavily" transitions to that node, and
any node the edge selects bears the sender's name. -/
theorem call_tool_returns_to_sender (o : Oracle) (s s' : ConvState)
    (hexec : executeNode o Node.call_tool s = Except.ok s') :
    (s.sender = "Rag" → nextNode Node.call_tool s' = Except.ok (some Node.Rag)) ∧
    (s.sender = "Tavily" → nextNode Node.call_tool s' = Except.ok (some Node.Tavily)) ∧
    (∀ n : Node, nextNode Node.call_tool s' = Except.ok (some n) → n.nodeName = s.sender) := by
  have hs : s'.sender = s.sender := executeNode_call_tool_sender o s s' hexec
  refine ⟨?_, ?_, ?_⟩
  · intro h
    simp only [nextNode]
    rw [hs, h]
    rfl
  · intro h
    simp only [nextNode]
    rw [hs, h]
    rfl
  · intro n hn
    simp only [nextNode] at hn
    split at hn
    case _ heq =>
      injection hn with h1; injection h1 with h2
      rw [← h2, ← hs, heq]; rfl
    case _ heq =>
      injection hn with h1; injection h1 with h2
      rw [← h2, ← hs, heq]; rfl
    case _ => cases hn

/-- The state in which the Rag agent has just issued a `rag_search`
call (C4 witness input). -/
def ragIssuedState : ConvState :=
  { messages := [{ role := Role.user, content := JsContent.str "q", name := none, tool_calls := none },
                 { role := Role.assistant, content := JsContent.str "", name := none,
                   tool_calls := some [{ id := "1", name := "rag_search", args := "q" }] }],
    sender := "Rag" }

/-- The state after `call_tool` executes on `ragIssuedState` under
`ragToolOracle`. -/
def ragServedState : ConvState :=
  { messages := ragIssuedState.messages ++
      [{ role := Role.tool, content := JsContent.str "doc", name := some "rag_search", tool_calls := none }],
    sender := "Rag" }

/-- C4 witness: executing `call_tool` on a state whose sender is "Rag"
succeeds and the edge returns to the Rag node. -/
theorem call_tool_returns_to_sender_witness :
    executeNode ragToolOracle Node.call_tool ragIssuedState = Except.ok ragServedState ∧
    ragIssuedState.sender = "Rag" ∧
    nextNode Node.call_tool ragServedState = Except.ok (some Node.Rag) :=
  ⟨by decide, rfl,
    (call_tool_returns_to_sender ragToolOracle ragIssuedState ragServedState (by decide)).1 rfl⟩

/-- C5 counterexample: on a state with an empty message list the router
is not total — reading `.content` of the missing last message throws a
TypeError instead of returning a label. -/
theorem router_empty_counterexample :
    router [] = Except.error JsError.typeError := rfl

/-- C5 (amended): the router is pure and total on every state whose
message list is non-empty — including when the last message has no tool
calls and a non-string content — returning one of the three labels. -/
theorem router_total_on_nonempty (messages : List Message) (h : messages ≠ []) :
    router messages = Except.ok "call_tool" ∨ router messages = Except.ok "end" ∨
      router messages = Except.ok "continue" := by
  obtain ⟨m, hm⟩ := Option.isSome_iff_exists.mp (List.getLast?_isSome.mpr h)
  obtain ⟨role, content, nm, tcs⟩ := m
  unfold router
  rw [hm]
  by_cases h1 : 0 < (Option.getD tcs []).length
  · simp [h1]
  · cases content with
    | str c =>
      by_cases h2 : strIncludes c "FINAL ANSWER" <;> simp [h1, h2]
    | nonStr => simp [h1]

/-- C5 witness: a singleton log whose message has no tool calls and a
non-string content gets a label. -/
theorem router_total_on_nonempty_witness :
    ([({ role := Role.assistant, content := JsContent.nonStr, name := none,
         tool_calls := none } : Message)] ≠ []) ∧
    (router [{ role := Role.assistant, content := JsContent.nonStr, name := none, tool_calls := none }] =
        Except.ok "call_tool" ∨
      router [{ role := Role.assistant, content := JsContent.nonStr, name := none, tool_calls := none }] =
        Except.ok "end" ∨
      router [{ role := Role.assistant, content := JsContent.nonStr, name := none, tool_calls := none }] =
        Except.ok "continue") :=
  ⟨by decide, router_total_on_nonempty _ (by decide)⟩

/-- C6 counterexample: a completion with zero tool calls is re-wrapped
as `new HumanMessage(...)` — its appended role is `user` (JS "human"),
not `assistant` as the claim states. -/
theorem agent_retag_role_counterexample :
    (runAgentNode "Rag" { content := JsContent.str "hello", tool_calls := none }).messages.map Message.role =
      [Role.user] ∧
    Role.user ≠ Role.assistant :=
  ⟨by decide, by decide⟩

/-- C6 (amended): when the completion carries zero tool-call requests,
the appended message is re-tagged as a *human(user)-role* message
attributed to the invoking agent's own name, with its content kept and
no tool_calls property, and the returned sender is the agent's name. -/
theorem agent_no_tool_call_retag (agentName : String) (c : Completion)
    (h : (c.tool_calls.getD []).length = 0) :
    runAgentNode agentName c =
      { messages := [{ role := Role.user, content := c.content,
                       name := some agentName, tool_calls := none }],
        sender := some agentName } := by
  unfold runAgentNode
  rw [if_pos h]

/-- C6 witness: the retagging at a concrete tool-call-free completion. -/
theorem agent_no_tool_call_retag_witness :
    ((({ content := JsContent.str "answer", tool_calls := none } : Completion).tool_calls.getD []).length = 0) ∧
    runAgentNode "Rag" { content := JsContent.str "answer", tool_calls := none } =
      { messages := [{ role := Role.user, content := JsContent.str "answer",
                       name := some "Rag", tool_calls := none }],
        sender := some "Rag" } :=
  ⟨rfl, agent_no_tool_call_retag "Rag" _ rfl⟩

/-- C7: the log is only ever extended by concatenation — the messages
reducer is list concatenation, every successful node execution appends
to the previous log (never reorders or truncates it), the Tavily
filtered view is a sublist freshly computed from the canonical log, and
the Tavily node's own update is folded into the *unfiltered* canonical
state (the filter is local to the Model Client view). -/
theorem log_append_only_and_filter_fresh :
    (∀ x y : List Message, messagesReducer x y = x ++ y) ∧
    (∀ (o : Oracle) (n : Node) (s s' : ConvState),
      executeNode o n s = Except.ok s' → ∃ t, s'.messages = s.messages ++ t) ∧
    (∀ msgs : List Message, List.Sublist (tavilyFilter msgs) msgs) ∧
    (∀ (o : Oracle) (s : ConvState),
      executeNode o Node.Tavily s =
        Except.ok (applyUpdate s (runAgentNode "Tavily" (o.complete "Tavily" (tavilyFilter s.messages))))) :=
  ⟨fun _ _ => rfl, executeNode_messages_extend,
   fun msgs => List.filter_sublist msgs, fun _ _ => rfl⟩

/-- C8 counterexample: the empty question is not rejected — no
`InputError` is raised, a ConversationState *is* seeded and an Executor
step *is* taken: under a sentinel-emitting Model Client the Run on ""
completes normally after one step. -/
theorem empty_question_counterexample :
    StateGraphService.run finalOracle "" =
      Except.ok { messages := [{ role := Role.user, content := JsContent.str "", name := none, tool_calls := none },
                               { role := Role.user, content := JsContent.str "FINAL ANSWER: 42",
                                 name := some "Coordinator", tool_calls := none }],
                  sender := "Coordinator" } ∧
    (graphInvoke finalOracle "").2.length = 1 :=
  ⟨by decide, by decide⟩

/-- C8 (amended): the orchestration entry point performs no input
validation at all: no run result is ever the spec's `InputError`, every
input (the empty string included) seeds the single-user-message state
and invokes the graph, and even on the empty question at least one
Executor step is taken. -/
theorem run_no_input_validation :
    (∀ (o : Oracle) (input : String), isInputError (StateGraphService.run o input) = false) ∧
    (∀ (o : Oracle) (input : String),
      graphInvoke o input = runNodes o recursionLimit Node.Coordinator (seedState input)) ∧
    (∀ o : Oracle, 1 ≤ (graphInvoke o "").2.length) := by
  refine ⟨?_, ?_, ?_⟩
  · intro o input
    exact runNodes_not_inputError o recursionLimit Node.Coordinator (seedState input)
  · intro o input; rfl
  · intro o
    exact runNodes_succ_trace_pos o 24 Node.Coordinator (seedState "")

/-- C9 counterexample: a whitespace-only query is a non-empty string,
yet `search` rejects it with a `BadRequestException` instead of
returning a result list. -/
theorem knowledge_search_blank_counterexample :
    (" " : String) ≠ "" ∧
    KnowledgeService.search [] " " = Except.error (JsError.badRequest "La requête ne peut pas être vide") :=
  ⟨by decide, by decide⟩

/-- C9 (amended): for every query that is non-empty *after trimming
whitespace*, `search` returns a non-error response whose ordered result
list has at most 1 entry, and an empty store yields the empty result
list rather than an error. -/
theorem knowledge_search_top1 (ranked : List (DocumentChunk × Int)) (query : String)
    (h : (jsTrim query == "") = false) :
    ∃ resp, KnowledgeService.search ranked query = Except.ok resp ∧
      resp.results.length ≤ 1 ∧ (ranked = [] → resp.results = []) := by
  have hq : (query == "") = false := by
    cases hq : query == "" with
    | false => rfl
    | true =>
      have : query = "" := eq_of_beq hq
      subst this
      cases h
  unfold KnowledgeService.search
  rw [hq, h]
  simp only [Bool.or_self, Bool.false_or, if_false]
  cases ranked with
  | nil => exact ⟨_, rfl, by decide, fun _ => rfl⟩
  | cons a rest =>
    refine ⟨_, rfl, ?_, ?_⟩
    · simp [similaritySearchVectorWithScore]
    · intro hnil; cases hnil

/-- The one-chunk store of the C9 witness. -/
def oneChunkStore : List (DocumentChunk × Int) :=
  [({ pageContent := "doc", metadata := "m" }, 5)]

/-- C9 witness: a one-chunk store and the query "hello". -/
theorem knowledge_search_top1_witness :
    ((jsTrim "hello" == "") = false) ∧
    (∃ resp, KnowledgeService.search oneChunkStore "hello" = Except.ok resp ∧
      resp.results.length ≤ 1 ∧ (oneChunkStore = [] → resp.results = [])) :=
  ⟨by decide, knowledge_search_top1 oneChunkStore "hello" (by decide)⟩

/-- C10: reachable-state invariant: in any Run started at START (entry
at Coordinator on the seeded state) and driven for any step budget,
every invocation of the `call_tool` node happens on a state whose
sender is "Rag" or "Tavily" — so its routing map is never consulted
with an unmapped sender such as "user" or "Coordinator". -/
theorem call_tool_sender_invariant (o : Oracle) (input : String) (fuel : Nat)
    (p : Node × ConvState)
    (hp : p ∈ (runNodes o fuel Node.Coordinator (seedState input)).2)
    (hpc : p.1 = Node.call_tool) :
    p.2.sender = "Rag" ∨ p.2.sender = "Tavily" :=
  runNodes_call_tool_inv o fuel Node.Coordinator (seedState input)
    (fun hc => by cases hc) p hp hpc

/-- The state at which `call_tool` is invoked in the C10 witness run. -/
def witnessCallToolState : ConvState :=
  { messages := [{ role := Role.user, content := JsContent.str "q", name := none, tool_calls := none },
                 { role := Role.user, content := JsContent.str "go", name := some "Coordinator", tool_calls := none },
                 { role := Role.assistant, content := JsContent.str "", name := none,
                   tool_calls := some [{ id := "1", name := "rag_search", args := "q" }] }],
    sender := "Rag" }

/-- C10 witness: a run in which Rag issues a `rag_search` call reaches
`call_tool` with sender "Rag". -/
theorem call_tool_sender_invariant_witness :
    ((Node.call_tool, witnessCallToolState) ∈ (runNodes ragToolOracle 4 Node.Coordinator (seedState "q")).2) ∧
    ((Node.call_tool, witnessCallToolState).1 = Node.call_tool) ∧
    (witnessCallToolState.sender = "Rag" ∨ witnessCallToolState.sender = "Tavily") :=
  ⟨by decide, rfl,
    call_tool_sender_invariant ragToolOracle "q" 4 (Node.call_tool, witnessCallToolState) (by decide) rfl⟩

end RagWebAgent
